import Mathlib

/-!
Shallow embedding of the loss computation, decoding dispatch, side-argument
routing, gold-logical-form construction and the synthetic passage-attention
dataset reader of the `nmn-drop` DROP semantic parser
(`semqa/models/drop/drop_parser.py` and
`semqa/data/dataset_readers/drop/passage_attn2span.py`).

Tensors of log-probabilities are modelled as lists of reals (or as functions
`Int → ℝ` where the code indexes with `torch.gather`); `NotImplementedError`
and `IndexError` are modelled with `Option`.
-/

namespace DropParser

/-- `allennlp.nn.util.logsumexp`: mathematically `log (Σ exp xᵢ)` for a
non-empty tensor (the max-subtraction trick used there is an identity over
the reals). -/
noncomputable def logsumexp (xs : List ℝ) : ℝ := Real.log ((xs.map Real.exp).sum)

/-- Embedding of `DROPSemanticParser._get_span_answer_log_prob`, the per-span
stage (drop_parser.py lines 904-923): the mask is `start != -1`; masked rows
have their start/end indices clamped to 0, are gathered, and are then
overwritten with the fill value `-1e7` by `replace_masked_values`; unmasked
rows contribute `start_log_prob[start] + end_log_prob[end]`. -/
noncomputable def perSpanLogLikelihood (spans : List (Int × Int)) (startLP endLP : Int → ℝ) : List ℝ :=
  spans.map (fun s => if s.1 = -1 then -(10 ^ 7 : ℝ) else startLP s.1 + endLP s.2)

/-- Embedding of `DROPSemanticParser._get_span_answer_log_prob` (lines
878-930): log-sum-exp of the per-span log-likelihoods. -/
noncomputable def spanAnswerLogProb (spans : List (Int × Int)) (startLP endLP : Int → ℝ) : ℝ :=
  logsumexp (perSpanLogLikelihood spans startLP endLP)

theorem sum_exp_pos (xs : List ℝ) (h : xs ≠ []) : 0 < (xs.map Real.exp).sum := by
  induction xs with
  | nil => exact absurd rfl h
  | cons a t ih =>
    rcases t with - | ⟨b, t⟩
    · simpa using Real.exp_pos a
    · have := ih (by simp)
      simp only [List.map_cons, List.sum_cons] at this ⊢
      have ha := Real.exp_pos a
      linarith

theorem perSpan_append (spans pads : List (Int × Int)) (startLP endLP : Int → ℝ) :
    perSpanLogLikelihood (spans ++ pads) startLP endLP
      = perSpanLogLikelihood spans startLP endLP ++ perSpanLogLikelihood pads startLP endLP := by
  simp [perSpanLogLikelihood]

/-- C2 (counterexample to padding-invariance): over exact arithmetic, appending
one all-`-1` padded row to `answer_as_spans` strictly increases the returned
marginal log-likelihood, because the fill value `-1e7` still contributes
`exp (-1e7) > 0` to the log-sum-exp. (The identity only holds in floating
point, where `exp (-1e7)` underflows to `0`.) -/
theorem spanAnswerLogProb_not_padding_invariant :
    spanAnswerLogProb [((0 : Int), (0 : Int)), ((-1 : Int), (-1 : Int))]
        (fun _ => 0) (fun _ => 0)
      ≠ spanAnswerLogProb [((0 : Int), (0 : Int))] (fun _ => 0) (fun _ => 0) := by
  have h1 : spanAnswerLogProb [((0 : Int), (0 : Int))] (fun _ => 0) (fun _ => 0) = 0 := by
    simp [spanAnswerLogProb, perSpanLogLikelihood, logsumexp]
  have h2 : spanAnswerLogProb [((0 : Int), (0 : Int)), ((-1 : Int), (-1 : Int))]
      (fun _ => 0) (fun _ => 0) = Real.log (1 + Real.exp (-(10 ^ 7 : ℝ))) := by
    simp [spanAnswerLogProb, perSpanLogLikelihood, logsumexp]
  rw [h1, h2]
  exact ne_of_gt (Real.log_pos (by linarith [Real.exp_pos (-(10 ^ 7 : ℝ))]))

/-- C2 (amended): gold spans padded with the sentinel start index `-1` have
their per-span log-likelihoods replaced by the large negative fill value
`-1e7` (not zero) before the log-sum-exp; consequently appending `k` extra
all-`-1` rows changes the returned marginal log-likelihood exactly by the
padded rows' residual mass: the result equals
`log (exp original + k * exp (-1e7))` — equal to the original only in
floating point, where `exp (-1e7)` underflows to zero. -/
theorem spanAnswerLogProb_padding_mass (spans : List (Int × Int))
    (startLP endLP : Int → ℝ) (k : ℕ) (h : spans ≠ []) :
    perSpanLogLikelihood (List.replicate k ((-1 : Int), (-1 : Int))) startLP endLP
      = List.replicate k (-(10 ^ 7 : ℝ))
    ∧ spanAnswerLogProb (spans ++ List.replicate k ((-1 : Int), (-1 : Int))) startLP endLP
      = Real.log (Real.exp (spanAnswerLogProb spans startLP endLP)
          + k * Real.exp (-(10 ^ 7 : ℝ))) := by
  constructor
  · simp [perSpanLogLikelihood]
  · have hne : perSpanLogLikelihood spans startLP endLP ≠ [] := by
      simp [perSpanLogLikelihood, h]
    have hpos := sum_exp_pos _ hne
    rw [spanAnswerLogProb, perSpan_append, logsumexp, List.map_append, List.sum_append,
        spanAnswerLogProb, logsumexp, Real.exp_log hpos]
    congr 1
    simp [perSpanLogLikelihood, mul_comm]

/-- Closed witness for `spanAnswerLogProb_padding_mass` at a one-span list and
two padded rows. -/
theorem spanAnswerLogProb_padding_mass_witness :
    perSpanLogLikelihood (List.replicate 2 ((-1 : Int), (-1 : Int)))
        (fun _ => 0) (fun _ => 0)
      = List.replicate 2 (-(10 ^ 7 : ℝ))
    ∧ spanAnswerLogProb ([((3 : Int), (4 : Int))] ++ List.replicate 2 ((-1 : Int), (-1 : Int)))
        (fun _ => 0) (fun _ => 0)
      = Real.log (Real.exp (spanAnswerLogProb [((3 : Int), (4 : Int))] (fun _ => 0) (fun _ => 0))
          + 2 * Real.exp (-(10 ^ 7 : ℝ))) := by
  have := spanAnswerLogProb_padding_mass [((3 : Int), (4 : Int))]
    (fun _ => 0) (fun _ => 0) 2 (by simp)
  exact ⟨this.1, by simpa using this.2⟩

/-- One finished program's denotation as consumed by the loss computation in
`DROPSemanticParser.forward` (lines 703-762): its type tag (the string in
`batch_denotation_types`), its start/end log-probability vectors (used by the
span types) and its year-difference distribution (used by `YearDifference`). -/
structure ProgDen where
  progtype : String
  startLogProbs : Int → ℝ
  endLogProbs : Int → ℝ
  yearDiffDist : List ℝ

/-- The per-instance gold answer representations fed to `forward`. -/
structure GoldAnswers where
  answerAsPassageSpans : List (Int × Int)
  answerAsQuestionSpans : List (Int × Int)
  answerAsYearDifference : List ℝ

/-- `forward` lines 736-744: the `YearDifference` branch computes
`torch.sum(torch.log(pred + 1e-40) * gold)` elementwise over the predicted
year-difference distribution and the (multi-hot) gold vector. -/
noncomputable def yearDiffLogLikelihood (pred gold : List ℝ) : ℝ :=
  (List.zipWith (fun p g => Real.log (p + (10 ^ 40 : ℝ)⁻¹) * g) pred gold).sum

/-- The denotation types the loss computation of `forward` handles; any other
type falls into the final `else: raise NotImplementedError` (lines 746-748). -/
def recognizedProgTypes : List String :=
  ["PassageSpanAnswer", "QuestionSpanAnswer", "YearDifference"]

/-- The per-program branch of the loss loop in `forward` (lines 707-762):
dispatch on the denotation type to the matching gold representation; an
unrecognized type raises `NotImplementedError`, modelled as `none`. -/
noncomputable def progLogLikelihood (gold : GoldAnswers) (p : ProgDen) : Option ℝ :=
  if p.progtype = "PassageSpanAnswer" then
    some (spanAnswerLogProb gold.answerAsPassageSpans p.startLogProbs p.endLogProbs)
  else if p.progtype = "QuestionSpanAnswer" then
    some (spanAnswerLogProb gold.answerAsQuestionSpans p.startLogProbs p.endLogProbs)
  else if p.progtype = "YearDifference" then
    some (yearDiffLogLikelihood p.yearDiffDist gold.answerAsYearDifference)
  else none

/-- Left-to-right effectful map over a list in the `Option` monad: the
Python `for` loop appending to `instance_log_likelihood_list`, where a raise
at any element aborts the whole traversal. -/
def optionMapList {α β : Type} (f : α → Option β) : List α → Option (List β)
  | [] => some []
  | a :: t =>
    match f a with
    | none => none
    | some b => (optionMapList f t).map (fun bs => b :: bs)

/-- `forward` lines 762-771 for one instance: collect the per-program
denotation log-likelihoods, add the program log-probabilities elementwise
(`instance_denotation_log_likelihoods + instance_progs_log_probs`) and take
`logsumexp` over the instance's finished programs. -/
noncomputable def instanceMarginalLogLikelihood (gold : GoldAnswers)
    (progs : List ProgDen) (progLogProbs : List ℝ) : Option ℝ :=
  (optionMapList (progLogLikelihood gold) progs).map
    (fun lls => logsumexp (List.zipWith (· + ·) lls progLogProbs))

/-- `forward` lines 694-774 with `denotation_loss` enabled: accumulate
`denotation_loss += -1.0 * instance_marginal_log_likelihood` over the batch
and divide by `batch_size`. -/
noncomputable def batchDenotationLoss
    (batch : List (GoldAnswers × List ProgDen × List ℝ)) : Option ℝ :=
  (optionMapList (fun x => instanceMarginalLogLikelihood x.1 x.2.1 x.2.2) batch).map
    (fun mlls => mlls.foldl (fun acc m => acc + -(1 : ℝ) * m) 0 / (batch.length : ℝ))

/-- Total restatement of the recognized branches of `progLogLikelihood`, used
to phrase the loss in closed form (the `else` value is never reached under the
recognized-type hypothesis). -/
noncomputable def denotationLogLikelihood (gold : GoldAnswers) (p : ProgDen) : ℝ :=
  if p.progtype = "PassageSpanAnswer" then
    spanAnswerLogProb gold.answerAsPassageSpans p.startLogProbs p.endLogProbs
  else if p.progtype = "QuestionSpanAnswer" then
    spanAnswerLogProb gold.answerAsQuestionSpans p.startLogProbs p.endLogProbs
  else if p.progtype = "YearDifference" then
    yearDiffLogLikelihood p.yearDiffDist gold.answerAsYearDifference
  else 0

theorem progLogLikelihood_of_recognized (gold : GoldAnswers) (p : ProgDen)
    (h : p.progtype ∈ recognizedProgTypes) :
    progLogLikelihood gold p = some (denotationLogLikelihood gold p) := by
  simp only [recognizedProgTypes, List.mem_cons, List.not_mem_nil, or_false] at h
  rcases h with h | h | h <;>
    simp [progLogLikelihood, denotationLogLikelihood, h]

theorem progLogLikelihood_of_unrecognized (gold : GoldAnswers) (p : ProgDen)
    (h : p.progtype ∉ recognizedProgTypes) :
    progLogLikelihood gold p = none := by
  simp only [recognizedProgTypes, List.mem_cons, List.not_mem_nil, or_false, not_or] at h
  simp [progLogLikelihood, h.1, h.2.1, h.2.2]

theorem optionMapList_of_some {α β : Type} (f : α → Option β) (g : α → β)
    (l : List α) (h : ∀ a ∈ l, f a = some (g a)) :
    optionMapList f l = some (l.map g) := by
  induction l with
  | nil => rfl
  | cons a t ih =>
    have ha := h a (by simp)
    have ht := ih (fun b hb => h b (by simp [hb]))
    simp [optionMapList, ha, ht]

theorem optionMapList_eq_none_of_mem {α β : Type} (l : List α) (f : α → Option β)
    (a : α) (ha : a ∈ l) (hf : f a = none) : optionMapList f l = none := by
  induction l with
  | nil => cases ha
  | cons b t ih =>
    rcases List.mem_cons.mp ha with h | h
    · subst h
      simp [optionMapList, hf]
    · cases hb : f b with
      | none => simp [optionMapList, hb]
      | some y => simp [optionMapList, hb, ih h]

theorem foldl_add_map {α : Type} (l : List α) (f : α → ℝ) (c : ℝ) :
    l.foldl (fun a x => a + f x) c = c + (l.map f).sum := by
  induction l generalizing c with
  | nil => simp
  | cons x t ih =>
    simp only [List.foldl_cons, List.map_cons, List.sum_cons, ih]
    ring

/-- C1: with gold answers and denotation loss enabled, and every finished
program's denotation of a recognized type, the batch denotation loss is
exactly: per program the denotation log-likelihood plus the program
log-probability (a joint log-likelihood), per instance the log-sum-exp of the
joints over the instance's finished programs, and overall the negated
instance marginal log-likelihoods summed and divided by `batch_size`. -/
theorem batchDenotationLoss_eq_marginal (batch : List (GoldAnswers × List ProgDen × List ℝ))
    (hrec : ∀ x ∈ batch, ∀ p ∈ x.2.1, p.progtype ∈ recognizedProgTypes)
    (_hlen : ∀ x ∈ batch, x.2.1.length = x.2.2.length)
    (_hne : ∀ x ∈ batch, x.2.1 ≠ []) :
    batchDenotationLoss batch
      = some ((batch.map (fun x =>
            -(logsumexp (List.zipWith (· + ·)
                (x.2.1.map (denotationLogLikelihood x.1)) x.2.2)))).sum
          / (batch.length : ℝ)) := by
  have hinst : ∀ x ∈ batch, instanceMarginalLogLikelihood x.1 x.2.1 x.2.2
      = some (logsumexp (List.zipWith (· + ·)
          (x.2.1.map (denotationLogLikelihood x.1)) x.2.2)) := by
    intro x hx
    rw [instanceMarginalLogLikelihood,
        optionMapList_of_some _ (denotationLogLikelihood x.1) _
          (fun p hp => progLogLikelihood_of_recognized x.1 p (hrec x hx p hp))]
    rfl
  rw [batchDenotationLoss, optionMapList_of_some _ _ _ hinst]
  simp only [Option.map_some']
  congr 1
  rw [foldl_add_map, zero_add, List.map_map]
  simp [Function.comp_def, neg_one_mul]

/-- Closed witness for `batchDenotationLoss_eq_marginal`: one instance with a
single recognized (`PassageSpanAnswer`) program. -/
theorem batchDenotationLoss_eq_marginal_witness :
    batchDenotationLoss
        [(⟨[((0 : Int), (0 : Int))], [], []⟩,
          [⟨"PassageSpanAnswer", fun _ => 0, fun _ => 0, []⟩], [(0 : ℝ)])]
      = some ((([(⟨[((0 : Int), (0 : Int))], [], []⟩,
            [⟨"PassageSpanAnswer", fun _ => 0, fun _ => 0, []⟩], [(0 : ℝ)])]
            : List (GoldAnswers × List ProgDen × List ℝ)).map (fun x =>
            -(logsumexp (List.zipWith (· + ·)
                (x.2.1.map (denotationLogLikelihood x.1)) x.2.2)))).sum
          / (([(⟨[((0 : Int), (0 : Int))], [], []⟩,
            [⟨"PassageSpanAnswer", fun _ => 0, fun _ => 0, []⟩], [(0 : ℝ)])]
            : List (GoldAnswers × List ProgDen × List ℝ)).length : ℝ)) :=
  batchDenotationLoss_eq_marginal _
    (by
      intro x hx p hp
      rw [List.mem_singleton] at hx
      subst hx
      simp only [List.mem_singleton] at hp
      subst hp
      simp [recognizedProgTypes])
    (by
      intro x hx
      rw [List.mem_singleton] at hx
      subst hx
      rfl)
    (by
      intro x hx
      rw [List.mem_singleton] at hx
      subst hx
      simp)

/-- C7: if any finished program of any instance produces a denotation whose
type is not `PassageSpanAnswer`, `QuestionSpanAnswer` or `YearDifference`,
the unguarded `raise NotImplementedError` aborts the loss computation for the
whole batch (result `none`), not just for that program. -/
theorem batchDenotationLoss_aborts_on_unknown_type
    (batch : List (GoldAnswers × List ProgDen × List ℝ))
    (h : ∃ x ∈ batch, ∃ p ∈ x.2.1, p.progtype ∉ recognizedProgTypes) :
    batchDenotationLoss batch = none := by
  obtain ⟨x, hx, p, hp, htype⟩ := h
  have h1 : progLogLikelihood x.1 p = none := progLogLikelihood_of_unrecognized x.1 p htype
  have h2 : instanceMarginalLogLikelihood x.1 x.2.1 x.2.2 = none := by
    rw [instanceMarginalLogLikelihood, optionMapList_eq_none_of_mem x.2.1 _ p hp h1]
    rfl
  rw [batchDenotationLoss, optionMapList_eq_none_of_mem batch _ x hx h2]
  rfl

/-- Closed witness for `batchDenotationLoss_aborts_on_unknown_type`: a batch
whose second instance holds a `PassageNumber`-typed program (and whose first
is perfectly recognized) still loses the whole loss. -/
theorem batchDenotationLoss_aborts_on_unknown_type_witness :
    batchDenotationLoss
        [(⟨[((0 : Int), (0 : Int))], [], []⟩,
          [⟨"PassageSpanAnswer", fun _ => 0, fun _ => 0, []⟩], [(0 : ℝ)]),
         (⟨[], [], []⟩,
          [⟨"PassageNumber", fun _ => 0, fun _ => 0, []⟩], [(0 : ℝ)])]
      = none :=
  batchDenotationLoss_aborts_on_unknown_type _
    ⟨(⟨[], [], []⟩, [⟨"PassageNumber", fun _ => 0, fun _ => 0, []⟩], [(0 : ℝ)]),
     by simp,
     ⟨"PassageNumber", fun _ => 0, fun _ => 0, []⟩,
     by simp,
     by decide⟩

theorem yearDiff_factor_prod_pos : ∀ (pred gold : List ℝ),
    (∀ p ∈ pred, 0 ≤ p) →
    0 < (List.zipWith (fun p g => if g = 1 then p + (10 ^ 40 : ℝ)⁻¹ else 1) pred gold).prod
  | [], _, _ => by simp
  | _ :: _, [], _ => by simp
  | p :: pt, g :: gt, hp => by
    have hrest := yearDiff_factor_prod_pos pt gt (fun q hq => hp q (by simp [hq]))
    have hp0 : 0 ≤ p := hp p (by simp)
    simp only [List.zipWith_cons_cons, List.prod_cons]
    by_cases hg : g = 1
    · rw [if_pos hg]
      have hfac : 0 < p + (10 ^ 40 : ℝ)⁻¹ := by positivity
      exact mul_pos hfac hrest
    · rw [if_neg hg, one_mul]
      exact hrest

/-- C6 (counterexample): for a `YearDifference` denotation, the code's
log-likelihood `Σ gold⋅log (pred + 1e-40)` is NOT the log of the total
predicted probability mass on gold values: with two acceptable gold
year-differences each predicted at probability 1/2, the mass is 1 (log 0),
but the code sums the two logs and returns a strictly negative value. -/
theorem yearDiffLogLikelihood_ne_log_mass :
    yearDiffLogLikelihood [(1 : ℝ) / 2, 1 / 2] [1, 1]
      ≠ Real.log ((List.zipWith (· * ·) [(1 : ℝ) / 2, 1 / 2] [(1 : ℝ), 1]).sum) := by
  have hfac : Real.log ((1 : ℝ) / 2 + (10 ^ 40 : ℝ)⁻¹) < 0 :=
    Real.log_neg (by positivity) (by norm_num)
  have hmass : (List.zipWith (· * ·) [(1 : ℝ) / 2, 1 / 2] [(1 : ℝ), 1]).sum = 1 := by
    norm_num
  have hlhs : yearDiffLogLikelihood [(1 : ℝ) / 2, 1 / 2] [1, 1]
      = Real.log ((1 : ℝ) / 2 + (10 ^ 40 : ℝ)⁻¹) + Real.log ((1 : ℝ) / 2 + (10 ^ 40 : ℝ)⁻¹) := by
    simp [yearDiffLogLikelihood]
  rw [hlhs, hmass, Real.log_one]
  exact ne_of_lt (by linarith)

/-- C6 (amended): for a 0/1 multi-hot gold vector and a nonnegative predicted
distribution, the `YearDifference` log-likelihood equals the log of the
PRODUCT over gold-marked year-differences of `pred + 1e-40` — i.e. a joint
(product) likelihood of all acceptable gold values, which coincides with the
log of the gold mass only when exactly one gold value is marked. -/
theorem yearDiffLogLikelihood_eq_log_prod : ∀ (pred gold : List ℝ),
    (∀ g ∈ gold, g = 0 ∨ g = 1) → (∀ p ∈ pred, 0 ≤ p) →
    yearDiffLogLikelihood pred gold
      = Real.log ((List.zipWith
          (fun p g => if g = 1 then p + (10 ^ 40 : ℝ)⁻¹ else 1) pred gold).prod)
  | [], gold, _, _ => by simp [yearDiffLogLikelihood]
  | p :: pt, [], _, _ => by simp [yearDiffLogLikelihood]
  | p :: pt, g :: gt, hg, hp => by
    have hrec := yearDiffLogLikelihood_eq_log_prod pt gt
      (fun x hx => hg x (by simp [hx])) (fun x hx => hp x (by simp [hx]))
    have hpos := yearDiff_factor_prod_pos pt gt (fun x hx => hp x (by simp [hx]))
    have hp0 : 0 ≤ p := hp p (by simp)
    rcases hg g (by simp) with h0 | h1
    · subst h0
      simp only [yearDiffLogLikelihood, List.zipWith_cons_cons, List.sum_cons,
        List.prod_cons] at hrec ⊢
      rw [if_neg (by norm_num : ¬((0 : ℝ) = 1)), mul_zero, zero_add, one_mul]
      exact hrec
    · subst h1
      simp only [yearDiffLogLikelihood, List.zipWith_cons_cons, List.sum_cons,
        List.prod_cons, eq_self_iff_true, if_true, mul_one] at hrec ⊢
      have hfac : 0 < p + (10 ^ 40 : ℝ)⁻¹ := by positivity
      rw [Real.log_mul (ne_of_gt hfac) (ne_of_gt hpos), hrec]

/-- Closed witness for `yearDiffLogLikelihood_eq_log_prod` at a one-hot gold
vector. -/
theorem yearDiffLogLikelihood_eq_log_prod_witness :
    yearDiffLogLikelihood [(1 : ℝ) / 2, 1 / 2] [0, 1]
      = Real.log ((List.zipWith
          (fun p g => if g = 1 then p + (10 ^ 40 : ℝ)⁻¹ else 1)
          [(1 : ℝ) / 2, 1 / 2] [(0 : ℝ), 1]).prod) :=
  yearDiffLogLikelihood_eq_log_prod [(1 : ℝ) / 2, 1 / 2] [0, 1]
    (by
      intro g hg
      simp only [List.mem_cons, List.not_mem_nil, or_false] at hg
      rcases hg with h | h
      · exact Or.inl h
      · exact Or.inr h)
    (by
      intro p hp
      simp only [List.mem_cons, List.not_mem_nil, or_false] at hp
      rcases hp with h | h <;> subst h <;> norm_num)

/-- The mutable per-action side-argument dictionary threaded along a decoded
program, restricted to the keys the two grounding routers write
(`'event_date_groundings'` and `'event_num_groundings'`). A grounding is a
pair of probability vectors over passage dates/numbers. -/
structure SideArgs where
  eventDateGroundings : Option (List ℝ × List ℝ) := none
  eventNumGroundings : Option (List ℝ × List ℝ) := none

/-- The two date-comparison actions whose side-args
`datecompare_eventdategr_to_sideargs` (drop_parser.py lines 1198-1223)
writes to. -/
def dateRelevantActions : List String :=
  ["<PassageAttention,PassageAttention:PassageAttention_answer> -> compare_date_greater_than",
   "<PassageAttention,PassageAttention:PassageAttention_answer> -> compare_date_lesser_than"]

/-- The two number-comparison actions whose side-args
`numcompare_eventnumgr_to_sideargs` (lines 1226-1252) writes to. -/
def numRelevantActions : List String :=
  ["<PassageAttention,PassageAttention:PassageAttention_answer> -> compare_num_greater_than",
   "<PassageAttention,PassageAttention:PassageAttention_answer> -> compare_num_lesser_than"]

/-- Per-program inner loop of `datecompare_eventdategr_to_sideargs` (lines
1220-1223): walk the program's actions with their aligned side-arg dicts and
set `sidearg_dict['event_date_groundings'] = event_date_groundings` — the
instance's whole grounding pair — on every relevant action. -/
def injectDateGroundings (program : List String) (sideArgs : List SideArgs)
    (eventDateGroundings : List ℝ × List ℝ) : List SideArgs :=
  List.zipWith
    (fun action sd =>
      if action ∈ dateRelevantActions then
        { sd with eventDateGroundings := some eventDateGroundings }
      else sd)
    program sideArgs

/-- Per-program inner loop of `numcompare_eventnumgr_to_sideargs` (lines
1249-1252), identical except for the key and the relevant action set. -/
def injectNumGroundings (program : List String) (sideArgs : List SideArgs)
    (eventNumGroundings : List ℝ × List ℝ) : List SideArgs :=
  List.zipWith
    (fun action sd =>
      if action ∈ numRelevantActions then
        { sd with eventNumGroundings := some eventNumGroundings }
      else sd)
    program sideArgs

/-- C3 (counterexample): the grounding routers do NOT inject gold values in
first-occurrence-then-second-occurrence order. In a program with two
occurrences of a slot-bearing comparison action and distinct per-instance
gold groundings `g1 ≠ g2`, both occurrences receive the identical full pair
`(g1, g2)` — the second occurrence does not receive the second gold value,
and no occurrence counter exists in the code. -/
theorem injectDateGroundings_ignores_occurrence_order :
    (injectDateGroundings
        ["<PassageAttention,PassageAttention:PassageAttention_answer> -> compare_date_greater_than",
         "<PassageAttention,PassageAttention:PassageAttention_answer> -> compare_date_greater_than"]
        [{}, {}] ([(0 : ℝ)], [(1 : ℝ)])).map (fun sd => sd.eventDateGroundings)
      = [some ([(0 : ℝ)], [(1 : ℝ)]), some ([(0 : ℝ)], [(1 : ℝ)])]
    ∧ ([(0 : ℝ)] : List ℝ) ≠ [(1 : ℝ)] := by
  constructor
  · simp [injectDateGroundings, dateRelevantActions]
  · simp

/-- C3 (amended): each router assigns the instance's entire gold grounding
pair to EVERY occurrence of a relevant comparison action, independent of
occurrence order; side-args of non-relevant actions are left unchanged; and
no error is raised for any relation between the number of occurrences and the
number of supplied gold values. -/
theorem injectGroundings_sets_every_occurrence (program : List String)
    (sideArgs : List SideArgs) (gDate gNum : List ℝ × List ℝ) (k : ℕ)
    (hk1 : k < program.length) (hk2 : k < sideArgs.length) :
    (injectDateGroundings program sideArgs gDate).get
        ⟨k, by simp [injectDateGroundings, hk1, hk2]⟩
      = (if program.get ⟨k, hk1⟩ ∈ dateRelevantActions then
          { sideArgs.get ⟨k, hk2⟩ with eventDateGroundings := some gDate }
        else sideArgs.get ⟨k, hk2⟩)
    ∧ (injectNumGroundings program sideArgs gNum).get
        ⟨k, by simp [injectNumGroundings, hk1, hk2]⟩
      = (if program.get ⟨k, hk1⟩ ∈ numRelevantActions then
          { sideArgs.get ⟨k, hk2⟩ with eventNumGroundings := some gNum }
        else sideArgs.get ⟨k, hk2⟩) := by
  constructor
  · simp [injectDateGroundings, List.get_eq_getElem, List.getElem_zipWith]
  · simp [injectNumGroundings, List.get_eq_getElem, List.getElem_zipWith]

/-- Closed witness for `injectGroundings_sets_every_occurrence` at the second
occurrence of a relevant action in a two-action program. -/
theorem injectGroundings_sets_every_occurrence_witness :
    (injectDateGroundings
        ["<PassageAttention,PassageAttention:PassageAttention_answer> -> compare_date_lesser_than",
         "<PassageAttention,PassageAttention:PassageAttention_answer> -> compare_date_lesser_than"]
        [{}, {}] ([(0 : ℝ)], [(1 : ℝ)])).get ⟨1, by simp [injectDateGroundings]⟩
      = (if (["<PassageAttention,PassageAttention:PassageAttention_answer> -> compare_date_lesser_than",
          "<PassageAttention,PassageAttention:PassageAttention_answer> -> compare_date_lesser_than"]
            : List String).get ⟨1, by simp⟩ ∈ dateRelevantActions then
          { ([{}, {}] : List SideArgs).get ⟨1, by simp⟩ with
              eventDateGroundings := some ([(0 : ℝ)], [(1 : ℝ)]) }
        else ([{}, {}] : List SideArgs).get ⟨1, by simp⟩)
    ∧ (injectNumGroundings
        ["<PassageAttention,PassageAttention:PassageAttention_answer> -> compare_date_lesser_than",
         "<PassageAttention,PassageAttention:PassageAttention_answer> -> compare_date_lesser_than"]
        [{}, {}] ([(2 : ℝ)], [(3 : ℝ)])).get ⟨1, by simp [injectNumGroundings]⟩
      = (if (["<PassageAttention,PassageAttention:PassageAttention_answer> -> compare_date_lesser_than",
          "<PassageAttention,PassageAttention:PassageAttention_answer> -> compare_date_lesser_than"]
            : List String).get ⟨1, by simp⟩ ∈ numRelevantActions then
          { ([{}, {}] : List SideArgs).get ⟨1, by simp⟩ with
              eventNumGroundings := some ([(2 : ℝ)], [(3 : ℝ)]) }
        else ([{}, {}] : List SideArgs).get ⟨1, by simp⟩) :=
  injectGroundings_sets_every_occurrence _ _ _ _ 1 (by simp) (by simp)

/-- `forward` line 835: `instance_predicted_answer =
all_instance_progs_predicted_answer_strs[0]`. Python list indexing raises
`IndexError` when the instance has no finished program (empty answer list),
modelled as `none`. -/
def instancePredictedAnswer (answerStrs : List String) : Option String :=
  answerStrs[0]?

/-- `forward` lines 785-837: one predicted-answer string is appended to
`output_dict["predicted_answer"]` per batch instance, each taken from that
instance's answer-string list. -/
def batchPredictedAnswers (batchAnswerStrs : List (List String)) : Option (List String) :=
  optionMapList instancePredictedAnswer batchAnswerStrs

/-- C4 (counterexample): for an instance with no finished program, the
indexing `[0]` raises `IndexError` rather than returning an empty or explicit
no-answer predicted string. -/
theorem instancePredictedAnswer_raises_on_empty :
    instancePredictedAnswer [] = none
    ∧ instancePredictedAnswer [] ≠ some "" := by
  constructor
  · rfl
  · simp [instancePredictedAnswer]

/-- C4 (amended): in evaluation the system emits exactly one predicted-answer
string per instance — the answer of the FIRST (hence best-scoring, the search
returning finished states in non-increasing score order) finished program —
provided every instance has at least one finished program; with an instance
without finished programs, the `[0]` indexing raises (`IndexError`) instead
of yielding an empty/no-answer string. -/
theorem batchPredictedAnswers_first_of_each (batchAnswerStrs : List (List String))
    (h : ∀ strs ∈ batchAnswerStrs, strs ≠ []) :
    batchPredictedAnswers batchAnswerStrs
      = some (batchAnswerStrs.map (fun strs => strs.getD 0 ""))
    ∧ (batchAnswerStrs.map (fun strs => strs.getD 0 "")).length
        = batchAnswerStrs.length := by
  constructor
  · refine optionMapList_of_some _ _ _ ?_
    intro strs hstrs
    rcases strs with - | ⟨a, t⟩
    · exact absurd rfl (h [] hstrs)
    · simp [instancePredictedAnswer]
  · simp

/-- Closed witness for `batchPredictedAnswers_first_of_each`: a two-instance
batch where each instance's first (best-scoring) answer is emitted. -/
theorem batchPredictedAnswers_first_of_each_witness :
    batchPredictedAnswers [["7", "12"], ["over a season"]]
      = some (([["7", "12"], ["over a season"]] : List (List String)).map
          (fun strs => strs.getD 0 ""))
    ∧ (([["7", "12"], ["over a season"]] : List (List String)).map
          (fun strs => strs.getD 0 "")).length
        = ([["7", "12"], ["over a season"]] : List (List String)).length :=
  batchPredictedAnswers_first_of_each _
    (by
      intro strs hstrs
      simp only [List.mem_cons, List.not_mem_nil, or_false] at hstrs
      rcases hstrs with h | h <;> subst h <;> simp)

/-- `forward` lines 532-535: the auxiliary maximum-marginal-likelihood loss
over the supervised instances' final states. `instanceScores` holds, for each
supervised instance that produced final states (the keys of the dict returned
by the constrained search), the raw scores of its finished (allowed) states;
the loop accumulates `mml_loss += -logsumexp(scores)` and then divides by
`len(supervised_final_states)`. -/
noncomputable def mmlLossFromFinalStates (instanceScores : List (List ℝ)) : ℝ :=
  instanceScores.foldl (fun acc scores => acc + -(logsumexp scores)) 0
    / (instanceScores.length : ℝ)

/-- C8: the auxiliary MML loss equals the negative log-sum-exp of the raw
final-state scores of each supervised instance's allowed completions, summed
over supervised instances and divided by the number of supervised instances
that produced final states. -/
theorem mmlLossFromFinalStates_eq_sum (instanceScores : List (List ℝ))
    (_h : instanceScores ≠ []) :
    mmlLossFromFinalStates instanceScores
      = (instanceScores.map (fun scores => -(logsumexp scores))).sum
          / (instanceScores.length : ℝ) := by
  rw [mmlLossFromFinalStates, foldl_add_map, zero_add]

/-- Closed witness for `mmlLossFromFinalStates_eq_sum` on a two-instance
score table. -/
theorem mmlLossFromFinalStates_eq_sum_witness :
    mmlLossFromFinalStates [[(0 : ℝ), -1], [(-2 : ℝ)]]
      = (([[(0 : ℝ), -1], [(-2 : ℝ)]] : List (List ℝ)).map
          (fun scores => -(logsumexp scores))).sum
        / (([[(0 : ℝ), -1], [(-2 : ℝ)]] : List (List ℝ)).length : ℝ) :=
  mmlLossFromFinalStates_eq_sum _ (by simp)

/-- drop_parser.py line 81: date lesser-operator question tokens. -/
def dateLesserTokens : List String := ["first", "earlier", "forst", "firts"]

/-- drop_parser.py line 82: date greater-operator question tokens. -/
def dateGreaterTokens : List String := ["later", "last", "second"]

/-- drop_parser.py line 142: number greater-operator question tokens. -/
def numGreaterTokens : List String :=
  ["larger", "more", "largest", "bigger", "higher", "highest", "most", "greater"]

/-- drop_parser.py line 143: number lesser-operator question tokens. -/
def numLesserTokens : List String :=
  ["smaller", "fewer", "lowest", "smallest", "less", "least", "fewest", "lower"]

/-- drop_parser.py line 72/134. -/
def psaStart : String := "(find_passageSpanAnswer ("

/-- drop_parser.py line 73/135. -/
def qsaStart : String := "(find_questionSpanAnswer ("

/-- drop_parser.py line 76/137. -/
def lfTail : String := " find_PassageAttention find_PassageAttention))"

/-- Lines 99-105 and 162-166: append the passage-span logical form iff
`'@start@ -> PassageSpanAnswer'` is among the language's productions, then
the question-span form iff `'@start@ -> QuestionSpanAnswer'` is. -/
def buildGoldLFs (op : String) (prods : List String) : List String :=
  (if "@start@ -> PassageSpanAnswer" ∈ prods then [psaStart ++ op ++ lfTail] else [])
    ++ (if "@start@ -> QuestionSpanAnswer" ∈ prods then [qsaStart ++ op ++ lfTail] else [])

/-- `getGoldLF_datecomparison` (lines 70-105): the lesser-token loop sets the
operator if any lesser token occurs in the question; the greater-token loop
then runs UNCONDITIONALLY and overrides it if any greater token occurs;
`None` defaults to greater-than. The `language` argument is modelled by its
`all_possible_productions()` list. -/
def getGoldLF_datecomparison (qtokens prods : List String) : List String :=
  let opAfterLesser : Option String :=
    if dateLesserTokens.any (fun t => qtokens.contains t) then
      some "compare_date_lesser_than"
    else none
  let opAfterGreater : Option String :=
    if dateGreaterTokens.any (fun t => qtokens.contains t) then
      some "compare_date_greater_than"
    else opAfterLesser
  buildGoldLFs (opAfterGreater.getD "compare_date_greater_than") prods

/-- `getGoldLF_numcomparison` (lines 132-168): as the date variant, except
the greater-token loop runs only `if operator_action is None` — a matched
lesser token wins over a matched greater token. -/
def getGoldLF_numcomparison (qtokens prods : List String) : List String :=
  let opAfterLesser : Option String :=
    if numLesserTokens.any (fun t => qtokens.contains t) then
      some "compare_num_lesser_than"
    else none
  let opAfterGreater : Option String :=
    match opAfterLesser with
    | none =>
      if numGreaterTokens.any (fun t => qtokens.contains t) then
        some "compare_num_greater_than"
      else none
    | some o => some o
  buildGoldLFs (opAfterGreater.getD "compare_num_greater_than") prods

theorem mem_buildGoldLFs (op : String) (prods : List String) (lf : String)
    (h : lf ∈ buildGoldLFs op prods) :
    (lf = psaStart ++ op ++ lfTail ∧ "@start@ -> PassageSpanAnswer" ∈ prods)
    ∨ (lf = qsaStart ++ op ++ lfTail ∧ "@start@ -> QuestionSpanAnswer" ∈ prods) := by
  by_cases h1 : "@start@ -> PassageSpanAnswer" ∈ prods <;>
    by_cases h2 : "@start@ -> QuestionSpanAnswer" ∈ prods <;>
      simp [buildGoldLFs, h1, h2] at h <;> tauto

/-- C9: on a question containing both a lesser- and a greater-operator token,
`getGoldLF_datecomparison` builds its gold logical forms with
`compare_date_greater_than` (the greater loop overrides the earlier lesser
match) while `getGoldLF_numcomparison` builds them with
`compare_num_lesser_than` (its greater loop runs only when no lesser token
matched); with no operator token at all both default to the greater-than
operator; and each emitted logical form is one of the two span forms, with
its start production a member of the language's `all_possible_productions()`
list. -/
theorem goldLF_operator_selection (qtokens prods : List String)
    (_hdl : dateLesserTokens.any (fun t => qtokens.contains t) = true)
    (hdg : dateGreaterTokens.any (fun t => qtokens.contains t) = true)
    (hnl : numLesserTokens.any (fun t => qtokens.contains t) = true)
    (_hng : numGreaterTokens.any (fun t => qtokens.contains t) = true) :
    getGoldLF_datecomparison qtokens prods
      = buildGoldLFs "compare_date_greater_than" prods
    ∧ getGoldLF_numcomparison qtokens prods
      = buildGoldLFs "compare_num_lesser_than" prods
    ∧ (∀ qt2 : List String,
        dateLesserTokens.any (fun t => qt2.contains t) = false →
        dateGreaterTokens.any (fun t => qt2.contains t) = false →
        numLesserTokens.any (fun t => qt2.contains t) = false →
        numGreaterTokens.any (fun t => qt2.contains t) = false →
        getGoldLF_datecomparison qt2 prods
            = buildGoldLFs "compare_date_greater_than" prods
        ∧ getGoldLF_numcomparison qt2 prods
            = buildGoldLFs "compare_num_greater_than" prods)
    ∧ (∀ lf ∈ getGoldLF_datecomparison qtokens prods,
        (lf = psaStart ++ "compare_date_greater_than" ++ lfTail
          ∧ "@start@ -> PassageSpanAnswer" ∈ prods)
        ∨ (lf = qsaStart ++ "compare_date_greater_than" ++ lfTail
          ∧ "@start@ -> QuestionSpanAnswer" ∈ prods))
    ∧ (∀ lf ∈ getGoldLF_numcomparison qtokens prods,
        (lf = psaStart ++ "compare_num_lesser_than" ++ lfTail
          ∧ "@start@ -> PassageSpanAnswer" ∈ prods)
        ∨ (lf = qsaStart ++ "compare_num_lesser_than" ++ lfTail
          ∧ "@start@ -> QuestionSpanAnswer" ∈ prods)) := by
  have hdate : getGoldLF_datecomparison qtokens prods
      = buildGoldLFs "compare_date_greater_than" prods := by
    simp only [getGoldLF_datecomparison, hdg, if_true, Option.getD_some]
  have hnum : getGoldLF_numcomparison qtokens prods
      = buildGoldLFs "compare_num_lesser_than" prods := by
    simp only [getGoldLF_numcomparison, hnl, if_true, Option.getD_some]
  refine ⟨hdate, hnum, ?_, ?_, ?_⟩
  · intro qt2 h1 h2 h3 h4
    constructor
    · simp only [getGoldLF_datecomparison, h1, h2, Bool.false_eq_true, if_false,
        Option.getD_none]
    · simp only [getGoldLF_numcomparison, h3, h4, Bool.false_eq_true, if_false,
        Option.getD_none]
  · intro lf hlf
    exact mem_buildGoldLFs _ _ _ (hdate ▸ hlf)
  · intro lf hlf
    exact mem_buildGoldLFs _ _ _ (hnum ▸ hlf)

/-- Closed witness for `goldLF_operator_selection`: a question with both
kinds of operator tokens selects the date greater-than operator. -/
theorem goldLF_operator_selection_witness :
    getGoldLF_datecomparison ["which", "team", "scored", "first", "later", "fewer", "more"]
        ["@start@ -> PassageSpanAnswer"]
      = buildGoldLFs "compare_date_greater_than" ["@start@ -> PassageSpanAnswer"] :=
  (goldLF_operator_selection
      ["which", "team", "scored", "first", "later", "fewer", "more"]
      ["@start@ -> PassageSpanAnswer"]
      (by decide) (by decide) (by decide) (by decide)).1

/-- passage_attn2span.py lines 70-78: a zero attention vector of length
`passage_length` whose slice `[start_position : end_position + 1]` (a span of
`span_length` tokens) is set to `1.0`. -/
noncomputable def mkSpanAttention (plen slen start : ℕ) : List ℝ :=
  List.replicate start 0 ++ List.replicate slen 1 ++ List.replicate (plen - (start + slen)) 0

/-- passage_attn2span.py line 81: `withnoise` adds `abs(gauss(0, 0.001))` to
every entry; the sampled absolute values are the `noise` list. -/
noncomputable def addNoise (attention noise : List ℝ) : List ℝ :=
  List.zipWith (· + ·) attention noise

/-- passage_attn2span.py lines 83-85: divide each entry by the vector sum. -/
noncomputable def normalizeAttention (attention : List ℝ) : List ℝ :=
  attention.map (fun x => x / attention.sum)

/-- The fields of one `Instance` produced by the `passage_attn2span`
`DROPReader._read`: `passage_attention`, `passage_lengths` and
`answer_as_passage_spans` (a single `[start, end]` row). -/
structure SyntheticInstance where
  passageAttention : List ℝ
  passageLength : ℕ
  answerAsPassageSpans : List (Int × Int)

/-- One iteration of the sample loop of `DROPReader._read` (lines 66-97),
parametrized by the random draws: `plen = randint(min_passage_length,
max_passage_length)`, `slen = randint(1, max_span_length)`,
`start = randint(0, plen - slen)` and the non-negative noise samples. -/
noncomputable def readInstance (withnoise normalized : Bool)
    (plen slen start : ℕ) (noise : List ℝ) : SyntheticInstance :=
  let endPosition := start + slen - 1
  let attention0 := mkSpanAttention plen slen start
  let attention1 := if withnoise then addNoise attention0 noise else attention0
  let attention2 := if normalized then normalizeAttention attention1 else attention1
  ⟨attention2, plen, [((start : Int), (endPosition : Int))]⟩

theorem mkSpanAttention_sum (plen slen start : ℕ) :
    (mkSpanAttention plen slen start).sum = (slen : ℝ) := by
  simp [mkSpanAttention, List.sum_replicate, nsmul_eq_mul]

theorem mkSpanAttention_length (plen slen start : ℕ) (h : start + slen ≤ plen) :
    (mkSpanAttention plen slen start).length = plen := by
  simp [mkSpanAttention]
  omega

theorem sum_zipWith_add (xs ys : List ℝ) (h : xs.length = ys.length) :
    (List.zipWith (· + ·) xs ys).sum = xs.sum + ys.sum := by
  induction xs generalizing ys with
  | nil =>
    cases ys with
    | nil => simp
    | cons y u => simp at h
  | cons x t ih =>
    cases ys with
    | nil => simp at h
    | cons y u =>
      simp only [List.zipWith_cons_cons, List.sum_cons, List.length_cons] at h ⊢
      rw [ih u (by omega)]
      ring

theorem sum_map_div (l : List ℝ) (s : ℝ) :
    (l.map (fun x => x / s)).sum = l.sum / s := by
  induction l with
  | nil => simp
  | cons x t ih =>
    simp only [List.map_cons, List.sum_cons, ih]
    rw [add_div]

/-- C10: every sampled instance of the `passage_attn2span` reader has exactly
one gold span `[start, end]` with `0 ≤ start ≤ end ≤ passage_length - 1` and
`end - start + 1 = span_length ≤ max_span_length`; its passage length lies in
`[min_passage_length, max_passage_length]`; and when `normalized` is true the
passage-attention entries sum to 1 (normalization being applied after any
noise). Hypotheses are the contracts of the `random.randint`/`gauss` draws. -/
theorem readInstance_invariants (minLen maxLen maxSpan : ℕ)
    (withnoise normalized : Bool) (plen slen start : ℕ) (noise : List ℝ)
    (hplen1 : minLen ≤ plen) (hplen2 : plen ≤ maxLen)
    (hslen1 : 1 ≤ slen) (hslen2 : slen ≤ maxSpan)
    (hsp : slen ≤ plen) (hstart : start ≤ plen - slen)
    (hnlen : noise.length = plen) (hnpos : ∀ x ∈ noise, 0 ≤ x) :
    (readInstance withnoise normalized plen slen start noise).answerAsPassageSpans
      = [((start : Int), ((start + slen - 1 : ℕ) : Int))]
    ∧ (0 : Int) ≤ (start : Int)
    ∧ (start : Int) ≤ ((start + slen - 1 : ℕ) : Int)
    ∧ ((start + slen - 1 : ℕ) : Int) ≤ (plen : Int) - 1
    ∧ ((start + slen - 1 : ℕ) : Int) - (start : Int) + 1 = (slen : Int)
    ∧ (slen : Int) ≤ (maxSpan : Int)
    ∧ minLen ≤ (readInstance withnoise normalized plen slen start noise).passageLength
    ∧ (readInstance withnoise normalized plen slen start noise).passageLength ≤ maxLen
    ∧ (normalized = true →
        (readInstance withnoise normalized plen slen start noise).passageAttention.sum = 1) := by
  have hframe : start + slen ≤ plen := by omega
  refine ⟨rfl, by positivity, by omega, by omega, by omega, by omega, hplen1, hplen2, ?_⟩
  intro hnorm
  subst hnorm
  have hsum1 : (if withnoise then addNoise (mkSpanAttention plen slen start) noise
      else mkSpanAttention plen slen start).sum
      = (slen : ℝ) + (if withnoise then noise.sum else 0) := by
    cases withnoise with
    | false => simp [mkSpanAttention_sum]
    | true =>
      simp only [if_true]
      rw [addNoise, sum_zipWith_add _ _ (by rw [mkSpanAttention_length _ _ _ hframe, hnlen]),
          mkSpanAttention_sum]
  have hnoise_nonneg : 0 ≤ (if withnoise then noise.sum else 0) := by
    cases withnoise with
    | false => simp
    | true => simpa using List.sum_nonneg hnpos
  have hpos : 0 < (if withnoise then addNoise (mkSpanAttention plen slen start) noise
      else mkSpanAttention plen slen start).sum := by
    rw [hsum1]
    have : (1 : ℝ) ≤ (slen : ℝ) := by exact_mod_cast hslen1
    linarith
  show (readInstance withnoise true plen slen start noise).passageAttention.sum = 1
  simp only [readInstance, if_true]
  rw [normalizeAttention, sum_map_div, div_self (ne_of_gt hpos)]

/-- Closed witness for `readInstance_invariants`: a noisy, normalized sample
with passage length 2 and a one-token span at position 1. -/
theorem readInstance_invariants_witness :
    (readInstance true true 2 1 1 [(0 : ℝ), 0]).passageAttention.sum = 1 :=
  (readInstance_invariants 2 3 2 true true 2 1 1 [(0 : ℝ), 0]
      (by norm_num) (by norm_num) (by norm_num) (by norm_num) (by norm_num) (by norm_num)
      (by norm_num)
      (by
        intro x hx
        simp only [List.mem_cons, List.not_mem_nil, or_false] at hx
        rcases hx with h | h <;> subst h <;> norm_num)).2.2.2.2.2.2.2.2 rfl

/-- `forward` line 510: `[i for (i, ss) in enumerate(instance_w_goldprog) if
ss is True]`. -/
def supervisedInstances (goldprog : List Bool) : List ℕ :=
  (List.range goldprog.length).filter (fun i => goldprog.getD i false)

/-- `forward` line 511: `[i for (i, ss) in enumerate(instance_w_goldprog) if
ss is False]`. -/
def unsupervisedInstances (goldprog : List Bool) : List ℕ :=
  (List.range goldprog.length).filter (fun i => !(goldprog.getD i false))

/-- `DROPSemanticParser._select_indices_from_list` (lines 1406-1408):
`[list[i] for i in indices]` (out-of-range indices never occur; `getD`
models the in-range access). -/
def selectIndices {α : Type} (xs : List α) (idxs : List ℕ) (d : α) : List α :=
  idxs.map (fun i => xs.getD i d)

/-- `get_valid_start_actionids` lines 953-956: the reader-string to
start-action mapping. -/
def answerTypeToActionMapping : List (String × String) :=
  [("passage_span", "@start@ -> PassageSpanAnswer"),
   ("year_difference", "@start@ -> YearDifference"),
   ("question_span", "@start@ -> QuestionSpanAnswer")]

/-- Inner loop of `DROPSemanticParser.get_valid_start_actionids` (lines
958-969) for one instance: build the set of start-action ids whose answer
type string is in the mapping; unknown types are only logged and skipped.
`action2actionidx` is the batch's action-to-index map. -/
def validStartActionIds (answerTypes : List String)
    (action2actionidx : String → ℕ) : Finset ℕ :=
  answerTypes.foldl
    (fun s t =>
      match answerTypeToActionMapping.lookup t with
      | some actionstr => insert (action2actionidx actionstr) s
      | none => s) ∅

/-- `DROPSemanticParser.get_valid_start_actionids` (lines 932-971) over a
batch of per-instance answer-type lists. -/
def get_valid_start_actionids (batchAnswerTypes : List (List String))
    (action2actionidx : String → ℕ) : List (Finset ℕ) :=
  batchAnswerTypes.map (fun typs => validStartActionIds typs action2actionidx)

/-- Which beam-search variant decodes a batch instance, together with the
constraint data handed to that search: the instance's allowed gold
action-index sequences for the fully-constrained `ConstrainedBeamSearch`, or
its allowed start-action ids for the first-step-constrained
`MyConstrainedBeamSearch`. -/
inductive DecodeResult (γ : Type) where
  | constrained (goldseqs : γ)
  | firstStep (startActionIds : Finset ℕ)
  | unconstrained

/-- `DROPSemanticParser.merge_final_states` (lines 1435-1466): reassemble the
per-sub-batch search results into batch order; sub-batch position `j` of the
supervised results holds original instance `supervised_instances[j]`, found
back through `list.index(i)`. -/
def mergeFinalStates {α : Type} (sup unsup : List ℕ)
    (supFS unsupFS : ℕ → α) : ℕ → α :=
  fun i => if i ∈ sup then supFS (sup.indexOf i) else unsupFS (unsup.indexOf i)

/-- The decode dispatch of `forward` (lines 505-595): during training with at
least one gold-program instance, the batch is partitioned and the supervised
part decoded by `ConstrainedBeamSearch` over the selected gold action
sequences while the rest gets `MyConstrainedBeamSearch` with the selected
instances' valid start-action ids; during training with no gold program, the
whole batch gets the first-step-constrained search; outside training, the
unconstrained `BeamSearch` is always used. -/
def forwardDecode {γ : Type} (training : Bool) (goldprog : List Bool)
    (goldseqs : List γ) (batchAnswerTypes : List (List String))
    (action2actionidx : String → ℕ) (dγ : γ) : ℕ → DecodeResult γ :=
  if training then
    if goldprog.any id then
      let sup := supervisedInstances goldprog
      let unsup := unsupervisedInstances goldprog
      let supGold := selectIndices goldseqs sup dγ
      let unsupTypes := selectIndices batchAnswerTypes unsup []
      let unsupStartIds := get_valid_start_actionids unsupTypes action2actionidx
      mergeFinalStates sup unsup
        (fun j => DecodeResult.constrained (supGold.getD j dγ))
        (fun j => DecodeResult.firstStep (unsupStartIds.getD j ∅))
    else
      let startIds := get_valid_start_actionids batchAnswerTypes action2actionidx
      fun i => DecodeResult.firstStep (startIds.getD i ∅)
  else
    fun _ => DecodeResult.unconstrained

theorem mem_supervisedInstances (goldprog : List Bool) (i : ℕ) :
    i ∈ supervisedInstances goldprog
      ↔ i < goldprog.length ∧ goldprog.getD i false = true := by
  simp [supervisedInstances, List.mem_filter, List.mem_range]

theorem mem_unsupervisedInstances (goldprog : List Bool) (i : ℕ) :
    i ∈ unsupervisedInstances goldprog
      ↔ i < goldprog.length ∧ goldprog.getD i false = false := by
  simp [unsupervisedInstances, List.mem_filter, List.mem_range]

theorem getD_indexOf (l : List ℕ) (i : ℕ) (h : i ∈ l) :
    l.getD (l.indexOf i) 0 = i := by
  rw [List.getD_eq_getElem l 0 (List.indexOf_lt_length.mpr h)]
  exact List.getElem_indexOf _

theorem selectIndices_getD {α : Type} (xs : List α) (idxs : List ℕ) (d : α)
    (j : ℕ) (hj : j < idxs.length) :
    (selectIndices xs idxs d).getD j d = xs.getD (idxs.getD j 0) d := by
  rw [selectIndices, List.getD_eq_getElem _ d (by simpa using hj),
      List.getElem_map, List.getD_eq_getElem idxs 0 hj]

theorem get_valid_start_actionids_getD (batchAnswerTypes : List (List String))
    (action2actionidx : String → ℕ) (j : ℕ) (hj : j < batchAnswerTypes.length) :
    (get_valid_start_actionids batchAnswerTypes action2actionidx).getD j ∅
      = validStartActionIds (batchAnswerTypes.getD j []) action2actionidx := by
  rw [get_valid_start_actionids, List.getD_eq_getElem _ ∅ (by simpa using hj),
      List.getElem_map, List.getD_eq_getElem batchAnswerTypes [] hj]

/-- C5: during training with at least one gold-program instance the batch is
partitioned — a gold-program instance is decoded by the fully-constrained
search over ITS gold action-index sequences (with masks), any other instance
by the first-step-constrained search whose step-0 successors are restricted
to ITS valid start-action ids; during training with no gold program the whole
batch uses the first-step-constrained search; outside training the
unconstrained beam search over the full language is always used. -/
theorem forwardDecode_modes {γ : Type} (training : Bool) (goldprog : List Bool)
    (goldseqs : List γ) (batchAnswerTypes : List (List String))
    (action2actionidx : String → ℕ) (dγ : γ) (i : ℕ)
    (hi : i < goldprog.length)
    (hglen : goldseqs.length = goldprog.length)
    (htlen : batchAnswerTypes.length = goldprog.length) :
    (training = false →
      forwardDecode training goldprog goldseqs batchAnswerTypes action2actionidx dγ i
        = DecodeResult.unconstrained)
    ∧ (training = true → goldprog.any id = true → goldprog.getD i false = true →
      forwardDecode training goldprog goldseqs batchAnswerTypes action2actionidx dγ i
        = DecodeResult.constrained (goldseqs.getD i dγ))
    ∧ (training = true → goldprog.any id = true → goldprog.getD i false = false →
      forwardDecode training goldprog goldseqs batchAnswerTypes action2actionidx dγ i
        = DecodeResult.firstStep
            (validStartActionIds (batchAnswerTypes.getD i []) action2actionidx))
    ∧ (training = true → goldprog.any id = false →
      forwardDecode training goldprog goldseqs batchAnswerTypes action2actionidx dγ i
        = DecodeResult.firstStep
            (validStartActionIds (batchAnswerTypes.getD i []) action2actionidx)) := by
  refine ⟨?_, ?_, ?_, ?_⟩
  · intro htr
    subst htr
    simp [forwardDecode]
  · intro htr hany hgi
    subst htr
    have hmem : i ∈ supervisedInstances goldprog :=
      (mem_supervisedInstances goldprog i).mpr ⟨hi, hgi⟩
    have hidx : (supervisedInstances goldprog).indexOf i
        < (supervisedInstances goldprog).length :=
      List.indexOf_lt_length.mpr hmem
    simp only [forwardDecode, hany, if_true, mergeFinalStates, hmem]
    rw [selectIndices_getD _ _ _ _ hidx, getD_indexOf _ _ hmem]
  · intro htr hany hgi
    subst htr
    have hnmem : i ∉ supervisedInstances goldprog := by
      rw [mem_supervisedInstances]
      intro hcontra
      rw [hgi] at hcontra
      exact Bool.false_ne_true hcontra.2
    have hmem : i ∈ unsupervisedInstances goldprog :=
      (mem_unsupervisedInstances goldprog i).mpr ⟨hi, hgi⟩
    have hidx : (unsupervisedInstances goldprog).indexOf i
        < (unsupervisedInstances goldprog).length :=
      List.indexOf_lt_length.mpr hmem
    simp only [forwardDecode, hany, if_true, mergeFinalStates, hnmem, if_false]
    rw [get_valid_start_actionids_getD _ _ _
          (by simpa [selectIndices] using hidx),
        selectIndices_getD _ _ _ _ hidx, getD_indexOf _ _ hmem]
  · intro htr hany
    subst htr
    simp only [forwardDecode, hany, Bool.false_eq_true, if_false, if_true]
    rw [get_valid_start_actionids_getD _ _ _ (by omega)]

/-- Closed witness for `forwardDecode_modes`: in a training batch
`[goldprog, no-goldprog]`, instance 0 goes to the fully-constrained search
with its own gold sequences. -/
theorem forwardDecode_modes_witness :
    forwardDecode true [true, false] [[[2, 5]], [[7]]]
        [["passage_span"], ["question_span"]] (fun _ => 0) ([] : List (List ℕ)) 0
      = DecodeResult.constrained (([[[2, 5]], [[7]]] : List (List (List ℕ))).getD 0 []) :=
  (forwardDecode_modes true [true, false] [[[2, 5]], [[7]]]
      [["passage_span"], ["question_span"]] (fun _ => 0) ([] : List (List ℕ)) 0
      (by norm_num) (by norm_num) (by norm_num)).2.1 rfl (by decide) (by decide)

end DropParser
